import Mathlib

/-!
Shallow embedding of `src/events/consumer.js` of the e-commerce
notifications microservice: the queue consumer loop, the four event
handlers (auth, product, order, user sync), the directory lookup and the
upsert-based user store, together with theorems settling the spec claims.
-/

namespace Notif

/-- A JavaScript value as it comes out of `JSON.parse` (plus `undefined`,
which property access on a missing key produces). -/
inductive JsValue where
  | undefined
  | null
  | str (s : String)
  | num (n : Int)
  | bool (b : Bool)
  | obj (fields : List (String × JsValue))

mutual

/-- Structural equality test on JavaScript values (models the equality the
document store applies to the `id` key of an upsert query). -/
def JsValue.beq : JsValue → JsValue → Bool
  | .undefined, .undefined => true
  | .null, .null => true
  | .str a, .str b => a == b
  | .num a, .num b => a == b
  | .bool a, .bool b => a == b
  | .obj fs, .obj gs => beqFields fs gs
  | _, _ => false

/-- Field-list part of `JsValue.beq`. -/
def beqFields : List (String × JsValue) → List (String × JsValue) → Bool
  | [], [] => true
  | (k, v) :: fs, (l, w) :: gs => k == l && JsValue.beq v w && beqFields fs gs
  | _, _ => false

end

/-- JavaScript property access `v[k]`: on an object, the value of the first
field named `k` (`undefined` if absent); on a primitive, `undefined`. -/
def getField (v : JsValue) (k : String) : JsValue :=
  match v with
  | .obj fs =>
    match fs.find? (fun p => p.1 == k) with
    | some p => p.2
    | none => .undefined
  | _ => .undefined

/-! ## Directory lookup and typed events

The auth, product and order handlers address recipients through
`fetchUserDetails`, which reads the MongoDB user collection. The collection
is modelled as a list of user records; `findOne({id})` returns the first
record whose `id` field matches, and `fetchUserDetails` catches both the
not-found throw and store errors, returning `null` (here `none`). -/

/-- A user record of the notification service's MongoDB collection. -/
structure User where
  id : String
  username : String
  email : String
  role : String
deriving DecidableEq

/-- The user collection read by the typed handlers. -/
abbrev UserStore := List User

/-- `fetchUserDetails` of `consumer.js`: `User.findOne({ id: userId })`,
throwing on a missing user but catching every error and returning `null`,
so at its interface it yields the first matching record or nothing. -/
def fetchUserDetails (store : UserStore) (userId : String) : Option User :=
  store.find? (fun u => u.id == userId)

/-- Which order event a branch of the `handleOrderEvents` switch serves. -/
inductive OrderKind where
  | placed
  | updated
  | deleted
deriving DecidableEq

/-- The `type` string of the switch case serving an `OrderKind`. -/
def orderTypeTag : OrderKind → String
  | .placed => "order_placed"
  | .updated => "order_updated"
  | .deleted => "order_deleted"

/-- One record of `data.remainingQuantities` of an order event. -/
structure RemainingRecord where
  productId : String
  remainingQuantity : Int
deriving DecidableEq

/-- `data` of an order event: parallel arrays indexed per line item, plus
the `remainingQuantities` record list. Fields read past an array's length
are `undefined` in JavaScript, so indexed reads are modelled with `[·]?`. -/
structure OrderData where
  userId : String
  sellerIds : List String
  productIds : List String
  titles : List String
  quantities : List Int
  remainingQuantities : List RemainingRecord
deriving DecidableEq

/-- An order event envelope. -/
structure OrderEvent where
  type : String
  data : OrderData
deriving DecidableEq

/-- `data.seller` of a product event. -/
structure SellerRef where
  id : String
deriving DecidableEq

/-- `data` of a product event (fields the handler destructures). -/
structure ProductData where
  title : String
  description : String
  price : Int
  quantity : Int
  category : String
  seller : SellerRef
  createdAt : String
deriving DecidableEq

/-- A product event envelope. -/
structure ProductEvent where
  type : String
  data : ProductData
deriving DecidableEq

/-- `data` of an auth event. -/
structure AuthData where
  userId : String
deriving DecidableEq

/-- An auth event envelope. -/
structure AuthEvent where
  type : String
  data : AuthData
deriving DecidableEq

/-! ## Email requests

`sendEmail(to, subject, text, html)` is the external transport. An email
request is modelled by the recipient plus the data the handler interpolates
into its subject/body; the literal HTML markup is formatting, not contract.
`Option` fields stand for interpolations that may be `undefined` when a
parallel array is shorter than `sellerIds`. -/

/-- An email request handed to the external sender. -/
inductive Email where
  | welcome (toAddr : String)
  | product (toAddr : String) (etype : String) (title : String)
  | orderSeller (toAddr : String) (kind : OrderKind) (title : Option String)
      (quantity : Option Int) (remainingShown : String)
  | orderBuyer (toAddr : String) (kind : OrderKind)
      (items : List (String × Option Int))
deriving DecidableEq

/-! ## Handler results and the queue consumer loop

A handler run is modelled as the list of emails actually delivered (resp.
the resulting store for the sync handler) paired with a Bool: `true` when
the handler's promise resolved, `false` when it rejected (threw). The
email transport is an oracle `sendFails : Email → Bool`; a send for which
it returns `true` throws a delivery error (and delivers nothing). -/

/-- Outcome of one delivered message at the broker interface. -/
inductive MsgOutcome where
  | acked
  | nacked
  | noAck
deriving DecidableEq

/-- One message of `consumeQueue` (`consumer.js` lines 46-59):
`JSON.parse` runs *before* the `try` block, so a decode failure
(`decoded = none`) throws out of the callback — the message is neither
acked nor nacked. A decoded event is handed to the handler; a normal
return acks the message, a throw nacks it without requeue. -/
def consumeStep {ε α : Type} (noEffect : α) (handler : ε → α × Bool)
    (decoded : Option ε) : MsgOutcome × α :=
  match decoded with
  | none => (.noAck, noEffect)
  | some ev =>
    let r := handler ev
    if r.2 then (.acked, r.1) else (.nacked, r.1)

/-! ## Auth handler -/

/-- Body of `handleAuthEvents` (inside its `try`): on `user_created`, look
up `data.userId`; if found, send the welcome email. -/
def handleAuthEventsBody (sendFails : Email → Bool) (store : UserStore)
    (event : AuthEvent) : List Email × Bool :=
  if event.type = "user_created" then
    match fetchUserDetails store event.data.userId with
    | none => ([], true)
    | some u =>
      let e := Email.welcome u.email
      if sendFails e then ([], false) else ([e], true)
  else ([], true)

/-- `handleAuthEvents`: the catch block logs and returns, so the handler
always resolves; emails sent before a throw stand. -/
def handleAuthEvents (sendFails : Email → Bool) (store : UserStore)
    (event : AuthEvent) : List Email × Bool :=
  ((handleAuthEventsBody sendFails store event).1, true)

/-! ## Product handler -/

/-- One branch of `handleProductEvents`: look up `data.seller.id`; if found,
render and send the single product email for this event type. -/
def productBranch (sendFails : Email → Bool) (store : UserStore)
    (etype : String) (d : ProductData) : List Email × Bool :=
  match fetchUserDetails store d.seller.id with
  | none => ([], true)
  | some s =>
    let e := Email.product s.email etype d.title
    if sendFails e then ([], false) else ([e], true)

/-- Body of `handleProductEvents` (inside its `try`): three sequential
`if`s on `event.type`, at most one of which can match. -/
def handleProductEventsBody (sendFails : Email → Bool) (store : UserStore)
    (event : ProductEvent) : List Email × Bool :=
  if event.type = "product_created" then
    productBranch sendFails store event.type event.data
  else if event.type = "product_updated" then
    productBranch sendFails store event.type event.data
  else if event.type = "product_deleted" then
    productBranch sendFails store event.type event.data
  else ([], true)

/-- `handleProductEvents`: the catch block logs and returns, so the handler
always resolves. -/
def handleProductEvents (sendFails : Email → Bool) (store : UserStore)
    (event : ProductEvent) : List Email × Bool :=
  ((handleProductEventsBody sendFails store event).1, true)

/-! ## Order handler -/

/-- JavaScript `x || "Unknown"` applied to
`remainingQuantities.find(p => p.productId === productIds[index])?.remainingQuantity`:
`undefined` (no match or index out of range) and the falsy number `0` both
render as `"Unknown"`; any other number renders numerically. -/
def renderNumOrUnknown : Option Int → String
  | none => "Unknown"
  | some q => if q = 0 then "Unknown" else toString q

/-- JavaScript `x || "Unknown"` applied to `remainingQuantities[index]` in
the `order_deleted` branch: an out-of-range index gives `undefined`, hence
`"Unknown"`; a present record is an object, always truthy, and a template
literal stringifies it as `"[object Object]"`. -/
def renderRecOrUnknown : Option RemainingRecord → String
  | none => "Unknown"
  | some _ => "[object Object]"

/-- First record of `remainingQuantities` whose `productId` equals
`productIds[index]` (`Array.prototype.find`), projected to its
`remainingQuantity` by `?.`; `none` when `productIds[index]` is
`undefined`, since no record's string `productId` equals `undefined`. -/
def findRemaining (rqs : List RemainingRecord) (pid : Option String) :
    Option Int :=
  match pid with
  | none => none
  | some p => (rqs.find? (fun r => r.productId == p)).map
      (fun r => r.remainingQuantity)

/-- The `Remaining Stock` string interpolated into the seller email for
line item `index`: `order_placed` and `order_updated` resolve it by
`productId` match; `order_deleted` indexes `remainingQuantities`
positionally. -/
def remainingShownFor (kind : OrderKind) (d : OrderData) (index : Nat) :
    String :=
  match kind with
  | .deleted => renderRecOrUnknown d.remainingQuantities[index]?
  | _ => renderNumOrUnknown (findRemaining d.remainingQuantities d.productIds[index]?)

/-- One seller promise of the `sellerIds.map` fan-out: look up the seller;
if found, render and send the per-line-item email (a failing send rejects
this promise); a missing seller resolves silently. -/
def orderSellerItem (sendFails : Email → Bool) (store : UserStore)
    (kind : OrderKind) (d : OrderData) (index : Nat) (sellerId : String) :
    List Email × Bool :=
  match fetchUserDetails store sellerId with
  | none => ([], true)
  | some s =>
    let e := Email.orderSeller s.email kind d.titles[index]? d.quantities[index]?
        (remainingShownFor kind d index)
    if sendFails e then ([], false) else ([e], true)

/-- The seller fan-out joined by `Promise.all`, with `index` starting at
`i`: every promise runs to completion independently (all successful sends
are delivered), and the join resolves only if every promise resolved. -/
def sellerFanOutFrom (sendFails : Email → Bool) (store : UserStore)
    (kind : OrderKind) (d : OrderData) : Nat → List String → List Email × Bool
  | _, [] => ([], true)
  | i, sellerId :: rest =>
    let r := orderSellerItem sendFails store kind d i sellerId
    let rs := sellerFanOutFrom sendFails store kind d (i + 1) rest
    (r.1 ++ rs.1, r.2 && rs.2)

/-- `await Promise.all(sellerPromises)` over all of `data.sellerIds`. -/
def sellerFanOut (sendFails : Email → Bool) (store : UserStore)
    (kind : OrderKind) (d : OrderData) : List Email × Bool :=
  sellerFanOutFrom sendFails store kind d 0 d.sellerIds

/-- The `<li>` items of the buyer email: `titles.map((title, index) => ...)`
pairing each title with `quantities[index]`. -/
def buyerItemsFrom (d : OrderData) : Nat → List String → List (String × Option Int)
  | _, [] => []
  | i, t :: rest => (t, d.quantities[i]?) :: buyerItemsFrom d (i + 1) rest

/-- The buyer step after the seller join: await the buyer lookup started
up front; if found, render the aggregate email over all line items and
send it (a failing send throws). -/
def orderBuyerStep (sendFails : Email → Bool) (store : UserStore)
    (kind : OrderKind) (d : OrderData) : List Email × Bool :=
  match fetchUserDetails store d.userId with
  | none => ([], true)
  | some u =>
    let e := Email.orderBuyer u.email kind (buyerItemsFrom d 0 d.titles)
    if sendFails e then ([], false) else ([e], true)

/-- One `case` of the `handleOrderEvents` switch: run the seller fan-out;
if its join rejects, the `await Promise.all` throws and the buyer step
never runs; otherwise proceed to the buyer step. -/
def orderCase (sendFails : Email → Bool) (store : UserStore)
    (kind : OrderKind) (d : OrderData) : List Email × Bool :=
  let sellers := sellerFanOut sendFails store kind d
  if sellers.2 then
    let buyer := orderBuyerStep sendFails store kind d
    (sellers.1 ++ buyer.1, buyer.2)
  else
    (sellers.1, false)

/-- Body of `handleOrderEvents` (inside its `try`): switch on `event.type`
with cases `order_placed`, `order_updated`, `order_deleted`; the default
case logs and resolves. -/
def handleOrderEventsBody (sendFails : Email → Bool) (store : UserStore)
    (event : OrderEvent) : List Email × Bool :=
  if event.type = "order_placed" then orderCase sendFails store .placed event.data
  else if event.type = "order_updated" then orderCase sendFails store .updated event.data
  else if event.type = "order_deleted" then orderCase sendFails store .deleted event.data
  else ([], true)

/-- `handleOrderEvents`: the catch block logs and returns, so the handler
always resolves; emails sent before a throw stand. -/
def handleOrderEvents (sendFails : Email → Bool) (store : UserStore)
    (event : OrderEvent) : List Email × Bool :=
  ((handleOrderEventsBody sendFails store event).1, true)

/-! ## User sync handler

`syncUserData` receives the decoded JSON value itself and destructures
`id`, `username`, `email`, `role` from its top level. Its store is the
same MongoDB collection, but written through
`User.findOneAndUpdate({id}, {username, email, role}, {upsert: true})`;
since the decoded fields may be absent, records are modelled with
`JsValue` fields. A store failure is an oracle `storeFails`. -/

/-- A stored user record as written by the sync upsert. -/
structure UserRec where
  id : JsValue
  username : JsValue
  email : JsValue
  role : JsValue

/-- The collection written by the sync handler. -/
abbrev SyncStore := List UserRec

/-- `findOneAndUpdate({id}, {username, email, role}, {upsert: true})`:
update the first record whose `id` matches (its `id` field is not part of
the update), or insert `{id, username, email, role}` when none matches. -/
def upsertUser (store : SyncStore) (id username email role : JsValue) :
    SyncStore :=
  match store with
  | [] => [⟨id, username, email, role⟩]
  | r0 :: rest =>
    if r0.id.beq id then ⟨r0.id, username, email, role⟩ :: rest
    else r0 :: upsertUser rest id username email role

/-- Body of `syncUserData` (inside its `try`): destructure the four fields
from the top level of the event (throwing if the event is `null` or
`undefined`) and run the upsert, which may fail with a store error. -/
def syncUserDataBody (storeFails : Bool) (store : SyncStore)
    (event : JsValue) : Except Unit SyncStore :=
  match event with
  | .undefined => .error ()
  | .null => .error ()
  | _ =>
    let id := getField event "id"
    let username := getField event "username"
    let email := getField event "email"
    let role := getField event "role"
    if storeFails then .error ()
    else .ok (upsertUser store id username email role)

/-- `syncUserData`: the catch block logs and returns, so the handler always
resolves; on a failed run the store is unchanged. -/
def syncUserData (storeFails : Bool) (store : SyncStore) (event : JsValue) :
    SyncStore × Bool :=
  match syncUserDataBody storeFails store event with
  | .ok s => (s, true)
  | .error _ => (store, true)

/-- Number of records of the sync store whose `id` matches `id`. -/
def countById (store : SyncStore) (id : JsValue) : Nat :=
  (store.filter (fun r0 => r0.id.beq id)).length

/-! ## Concrete instances

Small concrete stores and events used to evaluate the model at explicit
inputs. -/

/-- A store holding one buyer and two sellers. -/
def csStore : UserStore :=
  [⟨"u1", "B", "b@x", "buyer"⟩, ⟨"s1", "S1", "s1@x", "seller"⟩,
    ⟨"s2", "S2", "s2@x", "seller"⟩]

/-- Order data with two line items, both remaining quantities present. -/
def csOrderData : OrderData :=
  ⟨"u1", ["s1", "s2"], ["p1", "p2"], ["T1", "T2"], [1, 2],
    [⟨"p1", 3⟩, ⟨"p2", 4⟩]⟩

/-- An `order_placed` event over `csOrderData`. -/
def csOrderEvent : OrderEvent := ⟨"order_placed", csOrderData⟩

/-- A transport that throws exactly on the seller email addressed to
`s2@x` and delivers everything else. -/
def csSendFails : Email → Bool
  | .orderSeller toAddr _ _ _ _ => toAddr == "s2@x"
  | _ => false

/-- Order data with two line items but a single remaining-quantity record,
for the product `p2` only. -/
def csDeletedData : OrderData :=
  ⟨"u1", ["s1", "s2"], ["p1", "p2"], ["T1", "T2"], [1, 2], [⟨"p2", 5⟩]⟩

/-- Order data whose only line item's remaining-quantity record is `0`. -/
def csZeroData : OrderData :=
  ⟨"u1", ["s1"], ["p1"], ["T1"], [1], [⟨"p1", 0⟩]⟩

/-- Product data owned by seller `s1`. -/
def csProductData : ProductData :=
  ⟨"T1", "D", 10, 5, "C", ⟨"s1"⟩, "2024-01-01"⟩

/-- The decoded field list of the sync event
`{id:"u1", username:"a", email:"a@x", role:"seller"}`. -/
def csSyncFields : List (String × JsValue) :=
  [("id", .str "u1"), ("username", .str "a"), ("email", .str "a@x"),
    ("role", .str "seller")]

/-- The sync event itself. -/
def csSyncEvent : JsValue := .obj csSyncFields

/-! ## Helper lemmas -/

mutual

/-- `JsValue.beq` is reflexive. -/
theorem JsValue.beq_refl : ∀ v : JsValue, v.beq v = true
  | .undefined => rfl
  | .null => rfl
  | .str a => by simp [JsValue.beq]
  | .num a => by simp [JsValue.beq]
  | .bool a => by simp [JsValue.beq]
  | .obj fs => by simpa [JsValue.beq] using beqFields_refl fs

/-- `beqFields` is reflexive. -/
theorem beqFields_refl : ∀ fs : List (String × JsValue), beqFields fs fs = true
  | [] => rfl
  | (k, v) :: fs => by
    simp [beqFields]
    exact ⟨JsValue.beq_refl v, beqFields_refl fs⟩

end

/-- Upserting the same values twice is the same as upserting them once. -/
theorem upsertUser_idem (store : SyncStore) (id u e r : JsValue) :
    upsertUser (upsertUser store id u e r) id u e r =
      upsertUser store id u e r := by
  induction store with
  | nil => simp [upsertUser, JsValue.beq_refl]
  | cons r0 rest ih =>
    by_cases h : r0.id.beq id = true
    · simp [upsertUser, h]
    · simp [upsertUser, h, ih]

/-- `countById` on a cons whose head's `id` matches. -/
theorem countById_cons_pos (r0 : UserRec) (rest : SyncStore) (id : JsValue)
    (h : r0.id.beq id = true) :
    countById (r0 :: rest) id = countById rest id + 1 := by
  simp [countById, List.filter_cons, h]

/-- `countById` on a cons whose head's `id` does not match. -/
theorem countById_cons_neg (r0 : UserRec) (rest : SyncStore) (id : JsValue)
    (h : r0.id.beq id = false) :
    countById (r0 :: rest) id = countById rest id := by
  simp [countById, List.filter_cons, h]

/-- After an upsert into a store holding at most one matching record, the
store holds exactly one matching record. -/
theorem countById_upsertUser (store : SyncStore) (id u e r : JsValue)
    (h : countById store id ≤ 1) :
    countById (upsertUser store id u e r) id = 1 := by
  induction store with
  | nil =>
    show countById [⟨id, u, e, r⟩] id = 1
    rw [countById_cons_pos _ _ _ (JsValue.beq_refl id)]
    rfl
  | cons r0 rest ih =>
    cases h0 : r0.id.beq id with
    | true =>
      rw [countById_cons_pos _ _ _ h0] at h
      have hrest : countById rest id = 0 := by omega
      have hstep : upsertUser (r0 :: rest) id u e r =
          ⟨r0.id, u, e, r⟩ :: rest := by
        simp [upsertUser, h0]
      rw [hstep, countById_cons_pos ⟨r0.id, u, e, r⟩ rest id h0, hrest]
    | false =>
      rw [countById_cons_neg _ _ _ h0] at h
      have hstep : upsertUser (r0 :: rest) id u e r =
          r0 :: upsertUser rest id u e r := by
        simp [upsertUser, h0]
      rw [hstep, countById_cons_neg _ _ _ h0]
      exact ih h

/-- An upsert that matches no record appends the inserted record. -/
theorem upsertUser_append_of_notFound (store : SyncStore)
    (id u e r : JsValue) (h : countById store id = 0) :
    upsertUser store id u e r = store ++ [⟨id, u, e, r⟩] := by
  induction store with
  | nil => simp [upsertUser]
  | cons r0 rest ih =>
    cases h0 : r0.id.beq id with
    | true =>
      rw [countById_cons_pos _ _ _ h0] at h
      omega
    | false =>
      rw [countById_cons_neg _ _ _ h0] at h
      simp [upsertUser, h0, ih h]

/-- `List.find?` returns the first match: if `l[j]? = some a`, `p a` holds
and no earlier entry satisfies `p`, then `find?` yields `a`. -/
theorem find?_eq_of_first {α : Type} (p : α → Bool) :
    ∀ (l : List α) (j : Nat) (a : α),
      l[j]? = some a → p a = true →
      (∀ k, k < j → ∀ b, l[k]? = some b → p b = false) →
      l.find? p = some a
  | [], j, a, hj, _, _ => by simp at hj
  | x :: l, 0, a, hj, ha, _ => by
    simp at hj
    subst hj
    exact List.find?_cons_of_pos l ha
  | x :: l, j + 1, a, hj, ha, hfirst => by
    have hx : p x = false := hfirst 0 (Nat.succ_pos j) x (by simp)
    rw [List.find?_cons_of_neg l (by simp [hx])]
    exact find?_eq_of_first p l j a (by simpa using hj) ha
      (fun k hk b hb => hfirst (k + 1) (Nat.succ_lt_succ hk) b (by simpa using hb))

/-- When every seller resolves and no send fails, the fan-out starting at
index `i` resolves and delivers exactly one email per line item, addressed
to that line item's seller. -/
theorem sellerFanOutFrom_all_resolved (sendFails : Email → Bool)
    (store : UserStore) (kind : OrderKind) (d : OrderData)
    (hsend : ∀ e, sendFails e = false) :
    ∀ (sids : List String) (i : Nat),
      (∀ sid ∈ sids, (fetchUserDetails store sid).isSome) →
      ∃ es : List Email,
        sellerFanOutFrom sendFails store kind d i sids = (es, true) ∧
        es.length = sids.length ∧
        (∀ j sid, sids[j]? = some sid →
          ∃ s, fetchUserDetails store sid = some s ∧
            es[j]? = some (Email.orderSeller s.email kind d.titles[i + j]?
              d.quantities[i + j]? (remainingShownFor kind d (i + j))))
  | [], i, _ => ⟨[], rfl, rfl, by intro j sid hj; simp at hj⟩
  | sid0 :: rest, i, hres => by
    obtain ⟨s0, hs0⟩ := Option.isSome_iff_exists.mp (hres sid0 (by simp))
    obtain ⟨es, hes, hlen, hpt⟩ :=
      sellerFanOutFrom_all_resolved sendFails store kind d hsend rest (i + 1)
        (fun sid hsid => hres sid (by simp [hsid]))
    refine ⟨Email.orderSeller s0.email kind d.titles[i]? d.quantities[i]?
        (remainingShownFor kind d i) :: es, ?_, ?_, ?_⟩
    · simp [sellerFanOutFrom, orderSellerItem, hs0, hsend, hes]
    · simp [hlen]
    · intro j sid hj
      match j with
      | 0 =>
        simp at hj
        subst hj
        exact ⟨s0, hs0, by simp⟩
      | j + 1 =>
        simp at hj
        obtain ⟨s, hs, hpt2⟩ := hpt j sid hj
        refine ⟨s, hs, ?_⟩
        have harith : i + 1 + j = i + (j + 1) := by omega
        simpa [harith] using hpt2

/-- The buyer email's item list pairs every title, in order, with the
quantity at its index. -/
theorem buyerItemsFrom_spec (d : OrderData) :
    ∀ (ts : List String) (i : Nat),
      (buyerItemsFrom d i ts).length = ts.length ∧
      (∀ j t, ts[j]? = some t →
        (buyerItemsFrom d i ts)[j]? = some (t, d.quantities[i + j]?))
  | [], i => ⟨rfl, by intro j t hj; simp at hj⟩
  | t0 :: rest, i => by
    obtain ⟨hlen, hpt⟩ := buyerItemsFrom_spec d rest (i + 1)
    refine ⟨by simp [buyerItemsFrom, hlen], ?_⟩
    intro j t hj
    match j with
    | 0 =>
      simp at hj
      subst hj
      simp [buyerItemsFrom]
    | j + 1 =>
      simp at hj
      have harith : i + 1 + j = i + (j + 1) := by omega
      simpa [buyerItemsFrom, harith] using hpt j t hj

/-! ## Claim theorems -/

/-- C2 (amended): a delivered message whose body is not valid JSON makes
`JSON.parse` throw before the `try` block of `consumeQueue`, so the message
is neither acknowledged nor rejected — in particular it is not nacked — and
no handler side effect occurs. -/
theorem decode_failure_neither_acked_nor_nacked (ε α : Type) (noEffect : α)
    (handler : ε → α × Bool) :
    consumeStep noEffect handler none = (MsgOutcome.noAck, noEffect) := rfl

/-- C2 counterexample: on the order queue, a message with a malformed body
is left without any broker decision (`noAck`), not nacked as claimed. -/
theorem decode_failure_not_nacked_at_input :
    consumeStep ([] : List Email) (handleOrderEvents csSendFails csStore)
        none = (MsgOutcome.noAck, []) ∧
    MsgOutcome.noAck ≠ MsgOutcome.nacked :=
  ⟨rfl, by decide⟩

/-- C3: every handler catches its own errors and returns normally, so every
message that decodes successfully is acknowledged; after a successful
decode the nack branch of the consumer loop is unreachable. -/
theorem decoded_messages_always_acked (sendFails : Email → Bool)
    (store : UserStore) (syncStore : SyncStore) (storeFails : Bool)
    (evO : OrderEvent) (evP : ProductEvent) (evA : AuthEvent) (evS : JsValue) :
    (consumeStep [] (handleOrderEvents sendFails store) (some evO)).1 =
      MsgOutcome.acked ∧
    (consumeStep [] (handleProductEvents sendFails store) (some evP)).1 =
      MsgOutcome.acked ∧
    (consumeStep [] (handleAuthEvents sendFails store) (some evA)).1 =
      MsgOutcome.acked ∧
    (consumeStep syncStore (syncUserData storeFails syncStore) (some evS)).1 =
      MsgOutcome.acked := by
  refine ⟨rfl, rfl, rfl, ?_⟩
  cases hb : syncUserDataBody storeFails syncStore evS <;>
    simp [consumeStep, syncUserData, hb]

/-- C4 (amended): a failing document-store upsert is caught inside
`syncUserData`, which logs and returns normally; the message is therefore
acknowledged (not nacked) and the store is left unchanged. -/
theorem sync_store_failure_caught_acked (syncStore : SyncStore)
    (ev : JsValue) :
    syncUserData true syncStore ev = (syncStore, true) ∧
    consumeStep syncStore (syncUserData true syncStore) (some ev) =
      (MsgOutcome.acked, syncStore) := by
  have hb : syncUserDataBody true syncStore ev = .error () := by
    cases ev <;> rfl
  exact ⟨by simp [syncUserData, hb], by simp [consumeStep, syncUserData, hb]⟩

/-- C4 counterexample: the spec's own sync event with a failing store —
the message is acknowledged, not nacked. -/
theorem sync_store_failure_not_nacked_at_input :
    consumeStep ([] : SyncStore) (syncUserData true []) (some csSyncEvent) =
      (MsgOutcome.acked, []) ∧
    MsgOutcome.acked ≠ MsgOutcome.nacked :=
  ⟨rfl, by decide⟩

/-- C1 (amended): when any seller-path send throws, the seller join rejects
and the buyer email is skipped, but `handleOrderEvents` catches the error
and returns normally, so the handler reports success and the message is
acknowledged (not rejected) — the already-delivered seller emails stand. -/
theorem order_seller_send_failure_caught_acked (sendFails : Email → Bool)
    (store : UserStore) (ev : OrderEvent) (kind : OrderKind)
    (hty : ev.type = orderTypeTag kind)
    (hfail : (sellerFanOut sendFails store kind ev.data).2 = false) :
    handleOrderEvents sendFails store ev =
      ((sellerFanOut sendFails store kind ev.data).1, true) ∧
    consumeStep [] (handleOrderEvents sendFails store) (some ev) =
      (MsgOutcome.acked, (sellerFanOut sendFails store kind ev.data).1) := by
  have hbody : handleOrderEventsBody sendFails store ev =
      ((sellerFanOut sendFails store kind ev.data).1, false) := by
    cases kind <;>
      simp [orderTypeTag] at hty <;>
      simp [handleOrderEventsBody, hty, orderCase, hfail]
  exact ⟨by simp [handleOrderEvents, hbody],
    by simp [consumeStep, handleOrderEvents, hbody]⟩

/-- C1 witness: the amended statement evaluated at a concrete
`order_placed` event whose second seller send throws. -/
theorem order_seller_send_failure_caught_acked_witness :
    handleOrderEvents csSendFails csStore csOrderEvent =
      ((sellerFanOut csSendFails csStore .placed csOrderEvent.data).1, true) ∧
    consumeStep [] (handleOrderEvents csSendFails csStore) (some csOrderEvent) =
      (MsgOutcome.acked,
        (sellerFanOut csSendFails csStore .placed csOrderEvent.data).1) :=
  order_seller_send_failure_caught_acked csSendFails csStore csOrderEvent
    .placed rfl rfl

/-- C1 counterexample: an `order_placed` event where the second seller's
send throws while the first seller's email was already delivered — the
handler resolves and the message is acked, not rejected. -/
theorem order_seller_send_failure_not_nacked_at_input :
    (sellerFanOut csSendFails csStore .placed csOrderData).2 = false ∧
    consumeStep [] (handleOrderEvents csSendFails csStore) (some csOrderEvent) =
      (MsgOutcome.acked,
        [Email.orderSeller "s1@x" .placed (some "T1") (some 1) "3"]) ∧
    MsgOutcome.acked ≠ MsgOutcome.nacked :=
  ⟨rfl, rfl, by decide⟩

/-- C8: an event whose `type` is not recognized by its queue's handler
causes no email and no store access, the handler resolves, and the message
is acknowledged. -/
theorem unknown_type_no_action_acked (sendFails : Email → Bool)
    (store : UserStore) (evO : OrderEvent) (evP : ProductEvent)
    (evA : AuthEvent)
    (hO1 : evO.type ≠ "order_placed") (hO2 : evO.type ≠ "order_updated")
    (hO3 : evO.type ≠ "order_deleted")
    (hP1 : evP.type ≠ "product_created") (hP2 : evP.type ≠ "product_updated")
    (hP3 : evP.type ≠ "product_deleted")
    (hA : evA.type ≠ "user_created") :
    consumeStep [] (handleOrderEvents sendFails store) (some evO) =
      (MsgOutcome.acked, []) ∧
    consumeStep [] (handleProductEvents sendFails store) (some evP) =
      (MsgOutcome.acked, []) ∧
    consumeStep [] (handleAuthEvents sendFails store) (some evA) =
      (MsgOutcome.acked, []) := by
  refine ⟨?_, ?_, ?_⟩
  · simp [consumeStep, handleOrderEvents, handleOrderEventsBody, hO1, hO2, hO3]
  · simp [consumeStep, handleProductEvents, handleProductEventsBody, hP1,
      hP2, hP3]
  · simp [consumeStep, handleAuthEvents, handleAuthEventsBody, hA]

/-- C8 witness: concrete events with unrecognized `type` tags on the three
typed queues are all acked with no email sent. -/
theorem unknown_type_no_action_acked_witness :
    consumeStep [] (handleOrderEvents csSendFails csStore)
        (some ⟨"order_created", csOrderData⟩) = (MsgOutcome.acked, []) ∧
    consumeStep [] (handleProductEvents csSendFails csStore)
        (some ⟨"product_sold", csProductData⟩) = (MsgOutcome.acked, []) ∧
    consumeStep [] (handleAuthEvents csSendFails csStore)
        (some ⟨"user_deleted", ⟨"u1"⟩⟩) = (MsgOutcome.acked, []) :=
  unknown_type_no_action_acked csSendFails csStore
    ⟨"order_created", csOrderData⟩ ⟨"product_sold", csProductData⟩
    ⟨"user_deleted", ⟨"u1"⟩⟩ (by decide) (by decide) (by decide) (by decide)
    (by decide) (by decide) (by decide)

/-- C9: `syncUserData` reads `id`, `username`, `email`, `role` from the top
level of the decoded message; a `{type, data}` envelope therefore upserts a
record keyed by the absent (`undefined`) `id` with absent field values,
whatever `data` holds. -/
theorem sync_envelope_reads_top_level (syncStore : SyncStore)
    (tv dv : JsValue) (h : countById syncStore .undefined = 0) :
    (syncUserData false syncStore (.obj [("type", tv), ("data", dv)])).1 =
      syncStore ++ [⟨.undefined, .undefined, .undefined, .undefined⟩] := by
  have hbody : syncUserDataBody false syncStore
      (.obj [("type", tv), ("data", dv)]) =
      .ok (upsertUser syncStore .undefined .undefined .undefined .undefined) :=
    rfl
  simp [syncUserData, hbody, upsertUser_append_of_notFound _ _ _ _ _ h]

/-- C9 witness: a `{type, data}` envelope whose `data` even carries an
`id` field still upserts the all-`undefined` record. -/
theorem sync_envelope_reads_top_level_witness :
    (syncUserData false [] (.obj [("type", .str "user_created"),
        ("data", .obj [("id", .str "u9")])])).1 =
      [] ++ [⟨.undefined, .undefined, .undefined, .undefined⟩] :=
  sync_envelope_reads_top_level [] (.str "user_created")
    (.obj [("id", .str "u9")]) rfl

/-- C10: in the `order_placed` and `order_updated` seller emails, a present
remaining-quantity record with value `0` renders as `"Unknown"` (the falsy
value is coerced by `|| "Unknown"`); only a nonzero present value renders
numerically. -/
theorem zero_remaining_renders_unknown (kind : OrderKind) (d : OrderData)
    (i : Nat) (pid : String) (r : RemainingRecord)
    (hk : kind = .placed ∨ kind = .updated)
    (hpid : d.productIds[i]? = some pid)
    (hfind : d.remainingQuantities.find?
      (fun p => p.productId == pid) = some r) :
    (r.remainingQuantity = 0 → remainingShownFor kind d i = "Unknown") ∧
    (r.remainingQuantity ≠ 0 →
      remainingShownFor kind d i = toString r.remainingQuantity) := by
  have hshown : remainingShownFor kind d i =
      renderNumOrUnknown (some r.remainingQuantity) := by
    rcases hk with hk | hk <;> subst hk <;>
      simp [remainingShownFor, findRemaining, hpid, hfind]
  refine ⟨fun h0 => ?_, fun h0 => ?_⟩
  · rw [hshown]; simp [renderNumOrUnknown, h0]
  · rw [hshown]; simp [renderNumOrUnknown, h0]

/-- C10 witness: a line item whose matching record carries remaining
quantity `0`. -/
theorem zero_remaining_renders_unknown_witness :
    ((0 : Int) = 0 → remainingShownFor .placed csZeroData 0 = "Unknown") ∧
    ((0 : Int) ≠ 0 →
      remainingShownFor .placed csZeroData 0 = toString (0 : Int)) :=
  zero_remaining_renders_unknown .placed csZeroData 0 "p1" ⟨"p1", 0⟩
    (Or.inl rfl) rfl rfl

/-- C5 (amended): for `order_placed` and `order_updated` the remaining
stock shown for line item `i` is resolved by the first
`remainingQuantities` record whose `productId` equals `productIds[i]`
(an absent match renders `"Unknown"`); for `order_deleted` it is instead
read positionally at `remainingQuantities[i]` — a present record, being a
truthy object, stringifies as `"[object Object]"`, and only an absent one
renders `"Unknown"`. -/
theorem remaining_lookup_by_product_id (kind : OrderKind) (d : OrderData)
    (i : Nat) (pid : String) (hpid : d.productIds[i]? = some pid) :
    ((kind = .placed ∨ kind = .updated) →
      ((∀ r ∈ d.remainingQuantities, r.productId ≠ pid) →
        remainingShownFor kind d i = "Unknown") ∧
      (∀ (j : Nat) (r : RemainingRecord),
        d.remainingQuantities[j]? = some r → r.productId = pid →
        (∀ k, k < j → ∀ r2 : RemainingRecord,
          d.remainingQuantities[k]? = some r2 → r2.productId ≠ pid) →
        remainingShownFor kind d i =
          renderNumOrUnknown (some r.remainingQuantity))) ∧
    (kind = .deleted →
      remainingShownFor kind d i =
        renderRecOrUnknown d.remainingQuantities[i]?) := by
  refine ⟨fun hk => ⟨fun habs => ?_, fun j r hj hr hfirst => ?_⟩,
    fun hk => by subst hk; rfl⟩
  · have hfind : d.remainingQuantities.find?
        (fun r => r.productId == pid) = none := by
      rw [List.find?_eq_none]
      intro r hr
      simpa using habs r hr
    rcases hk with hk | hk <;> subst hk <;>
      simp [remainingShownFor, findRemaining, hpid, hfind, renderNumOrUnknown]
  · have hfind : d.remainingQuantities.find?
        (fun r2 => r2.productId == pid) = some r :=
      find?_eq_of_first _ _ j r hj (by simp [hr])
        (fun k hk2 b hb => by simpa using hfirst k hk2 b hb)
    rcases hk with hk | hk <;> subst hk <;>
      simp [remainingShownFor, findRemaining, hpid, hfind]

/-- C5 witness: the amended statement at line item `0` of a concrete
`order_placed` event. -/
theorem remaining_lookup_by_product_id_witness :
    ((OrderKind.placed = .placed ∨ OrderKind.placed = .updated) →
      ((∀ r ∈ csOrderData.remainingQuantities, r.productId ≠ "p1") →
        remainingShownFor .placed csOrderData 0 = "Unknown") ∧
      (∀ (j : Nat) (r : RemainingRecord),
        csOrderData.remainingQuantities[j]? = some r →
        r.productId = "p1" →
        (∀ k, k < j → ∀ r2 : RemainingRecord,
          csOrderData.remainingQuantities[k]? = some r2 →
          r2.productId ≠ "p1") →
        remainingShownFor .placed csOrderData 0 =
          renderNumOrUnknown (some r.remainingQuantity))) ∧
    (OrderKind.placed = .deleted →
      remainingShownFor .placed csOrderData 0 =
        renderRecOrUnknown csOrderData.remainingQuantities[0]?) :=
  remaining_lookup_by_product_id .placed csOrderData 0 "p1" rfl

/-- C5 counterexample: the spec's own remaining-quantity example run as an
`order_deleted` event — no record matches `productIds[0] = "p1"`, so the
claim demands `"Unknown"`, but the positional read finds the record for
`"p2"` and renders it as a truthy object. -/
theorem remaining_positional_on_deleted_at_input :
    csDeletedData.productIds[0]? = some "p1" ∧
    csDeletedData.remainingQuantities.find?
      (fun r => r.productId == "p1") = none ∧
    remainingShownFor .deleted csDeletedData 0 = "[object Object]" ∧
    ("[object Object]" : String) ≠ "Unknown" :=
  ⟨rfl, rfl, rfl, by decide⟩

/-- C6: for an `order_placed` event with every seller resolvable and a
delivering transport, exactly one seller email per line item is sent, each
to its line item's seller address — whether or not the buyer lookup
resolves; when it does resolve, exactly one aggregate buyer email listing
every line item with its quantity is additionally sent. -/
theorem order_placed_exact_emails (sendFails : Email → Bool)
    (store : UserStore) (ev : OrderEvent)
    (hty : ev.type = "order_placed")
    (hsend : ∀ e, sendFails e = false)
    (hsellers : ∀ sid ∈ ev.data.sellerIds, (fetchUserDetails store sid).isSome) :
    ∃ sellerEmails : List Email,
      sellerEmails.length = ev.data.sellerIds.length ∧
      (∀ (j : Nat) (sid : String), ev.data.sellerIds[j]? = some sid →
        ∃ s, fetchUserDetails store sid = some s ∧
          sellerEmails[j]? = some (Email.orderSeller s.email .placed
            ev.data.titles[j]? ev.data.quantities[j]?
            (remainingShownFor .placed ev.data j))) ∧
      ((fetchUserDetails store ev.data.userId).isNone →
        handleOrderEvents sendFails store ev = (sellerEmails, true)) ∧
      (∀ u, fetchUserDetails store ev.data.userId = some u →
        handleOrderEvents sendFails store ev =
          (sellerEmails ++ [Email.orderBuyer u.email .placed
            (buyerItemsFrom ev.data 0 ev.data.titles)], true)) ∧
      (buyerItemsFrom ev.data 0 ev.data.titles).length =
        ev.data.titles.length ∧
      (∀ (j : Nat) (t : String), ev.data.titles[j]? = some t →
        (buyerItemsFrom ev.data 0 ev.data.titles)[j]? =
          some (t, ev.data.quantities[j]?)) := by
  obtain ⟨es, hes, hlen, hpt⟩ :=
    sellerFanOutFrom_all_resolved sendFails store .placed ev.data hsend
      ev.data.sellerIds 0 hsellers
  obtain ⟨hblen, hbpt⟩ := buyerItemsFrom_spec ev.data ev.data.titles 0
  refine ⟨es, hlen, ?_, ?_, ?_, hblen, ?_⟩
  · intro j sid hj
    obtain ⟨s, hs, hpt2⟩ := hpt j sid hj
    exact ⟨s, hs, by simpa using hpt2⟩
  · intro hnone
    have hu : fetchUserDetails store ev.data.userId = none :=
      Option.isNone_iff_eq_none.mp hnone
    have hcase : orderCase sendFails store .placed ev.data = (es, true) := by
      simp [orderCase, sellerFanOut, hes, orderBuyerStep, hu]
    simp [handleOrderEvents, handleOrderEventsBody, hty, hcase]
  · intro u hu
    have hcase : orderCase sendFails store .placed ev.data =
        (es ++ [Email.orderBuyer u.email .placed
          (buyerItemsFrom ev.data 0 ev.data.titles)], true) := by
      simp [orderCase, sellerFanOut, hes, orderBuyerStep, hu, hsend]
    simp [handleOrderEvents, handleOrderEventsBody, hty, hcase]
  · intro j t hj
    simpa using hbpt j t hj

/-- C6 witness: the exact-email-count statement at a concrete two-line-item
`order_placed` event with a never-failing transport. -/
theorem order_placed_exact_emails_witness :
    ∃ sellerEmails : List Email,
      sellerEmails.length = csOrderEvent.data.sellerIds.length ∧
      (∀ (j : Nat) (sid : String),
        csOrderEvent.data.sellerIds[j]? = some sid →
        ∃ s, fetchUserDetails csStore sid = some s ∧
          sellerEmails[j]? = some (Email.orderSeller s.email .placed
            csOrderEvent.data.titles[j]? csOrderEvent.data.quantities[j]?
            (remainingShownFor .placed csOrderEvent.data j))) ∧
      ((fetchUserDetails csStore csOrderEvent.data.userId).isNone →
        handleOrderEvents (fun _ => false) csStore csOrderEvent =
          (sellerEmails, true)) ∧
      (∀ u, fetchUserDetails csStore csOrderEvent.data.userId = some u →
        handleOrderEvents (fun _ => false) csStore csOrderEvent =
          (sellerEmails ++ [Email.orderBuyer u.email .placed
            (buyerItemsFrom csOrderEvent.data 0 csOrderEvent.data.titles)],
            true)) ∧
      (buyerItemsFrom csOrderEvent.data 0 csOrderEvent.data.titles).length =
        csOrderEvent.data.titles.length ∧
      (∀ (j : Nat) (t : String), csOrderEvent.data.titles[j]? = some t →
        (buyerItemsFrom csOrderEvent.data 0 csOrderEvent.data.titles)[j]? =
          some (t, csOrderEvent.data.quantities[j]?)) :=
  order_placed_exact_emails (fun _ => false) csStore csOrderEvent rfl
    (fun _ => rfl) (by decide)

/-- C7: applying the same sync event twice is idempotent — the second
application leaves the store exactly as the first did, and the store then
holds exactly one record for the event's id (provided it started with at
most one, as any store built by upserts does). -/
theorem sync_twice_idempotent (syncStore : SyncStore)
    (fs : List (String × JsValue))
    (h : countById syncStore (getField (.obj fs) "id") ≤ 1) :
    (syncUserData false (syncUserData false syncStore (.obj fs)).1
        (.obj fs)).1 = (syncUserData false syncStore (.obj fs)).1 ∧
    countById (syncUserData false syncStore (.obj fs)).1
      (getField (.obj fs) "id") = 1 := by
  have hrun : ∀ s : SyncStore, (syncUserData false s (.obj fs)).1 =
      upsertUser s (getField (.obj fs) "id") (getField (.obj fs) "username")
        (getField (.obj fs) "email") (getField (.obj fs) "role") :=
    fun s => rfl
  simp only [hrun]
  exact ⟨upsertUser_idem _ _ _ _ _, countById_upsertUser _ _ _ _ _ h⟩

/-- C7 witness: the spec's sync event
`{id:"u1", username:"a", email:"a@x", role:"seller"}` applied twice to the
empty store. -/
theorem sync_twice_idempotent_witness :
    (syncUserData false (syncUserData false [] (.obj csSyncFields)).1
        (.obj csSyncFields)).1 = (syncUserData false [] (.obj csSyncFields)).1 ∧
    countById (syncUserData false [] (.obj csSyncFields)).1
      (getField (.obj csSyncFields) "id") = 1 :=
  sync_twice_idempotent [] csSyncFields (by decide)

end Notif
